import Mathlib

/-!
Verification of the graph ingestion pipeline (`ae_project_graph_ingestion.py`)
and the graph traversal layer (`mcp_ae_graph_walker.py`) of the auteur
repository, as a shallow embedding in Lean.

Python dictionaries whose keys may be absent are embedded as structures with
`Option` fields: a `KeyError` on a missing key corresponds to the `none` case.
The embedding-model service and its random vectors are abstracted into a type
parameter `V` together with a vector-producing function and a rational-valued
similarity function; no claim depends on concrete vector values.
-/

namespace Auteur

/-- Statistics record for graph ingestion, mirroring the `GraphStats`
dataclass (all counters start at 0; times are modelled as rationals). -/
structure GraphStats where
  nodes_created : Nat := 0
  edges_created : Nat := 0
  embeddings_generated : Nat := 0
  errors : Nat := 0
  start_time : ℚ := 0
  end_time : ℚ := 0
deriving DecidableEq

/-- Fresh statistics, as set up by `AEProjectGraphIngestion.__init__`
(`self.stats = GraphStats()`). -/
def initStats : GraphStats := {}

/-- One entry of the `embedding_content` list. The Python code reads the
keys `id`, `field`, `content`, `type`; a missing key raises `KeyError`. -/
structure RawContent where
  id : Option String := none
  field : Option String := none
  content : Option String := none
  type : Option String := none
deriving DecidableEq

/-- One entry of the `nodes` list. `_ingest_nodes` reads `id` and `type`
(raising on absence) and uses `node.get('properties', {})` for the rest. -/
structure RawNode where
  id : Option String := none
  type : Option String := none
  properties : Option (List (String × String)) := none
deriving DecidableEq

/-- One entry of the `edges` list. `_ingest_edges` reads `from`, `to` and
`type` (raising on absence); `from`/`to` are named `fromId`/`toId` here
because `from` is reserved in Lean. -/
structure RawEdge where
  fromId : Option String := none
  toId : Option String := none
  type : Option String := none
  properties : Option (List (String × String)) := none
deriving DecidableEq

/-- The `data` payload of an export document: `nodes`, `edges` and
`embedding_content` lists. -/
structure ProjectData where
  nodes : List RawNode
  edges : List RawEdge
  embedding_content : List RawContent
deriving DecidableEq

/-- The loaded export JSON: `success` flag (defaulting to `False` when the
key is absent, hence a total `Bool`) and the optional `data` payload. -/
structure ExportResult where
  success : Bool
  data : Option ProjectData
deriving DecidableEq

/-- The `node_types` mapping from AE node type to HelixDB schema type. -/
def nodeTypes : List (String × String) :=
  [("Project", "ae_project"),
   ("Composition", "ae_composition"),
   ("FootageItem", "ae_footage"),
   ("ProjectFolder", "ae_folder"),
   ("AVLayer", "ae_layer"),
   ("TextLayer", "ae_text_layer"),
   ("ShapeLayer", "ae_shape_layer"),
   ("CameraLayer", "ae_camera_layer"),
   ("LightLayer", "ae_light_layer"),
   ("Property", "ae_property"),
   ("PropertyGroup", "ae_property_group"),
   ("Effect", "ae_effect"),
   ("Keyframe", "ae_keyframe"),
   ("Expression", "ae_expression"),
   ("RenderQueueItem", "ae_render_item")]

/-- The `edge_types` mapping from AE edge type to HelixDB edge type. -/
def edgeTypes : List (String × String) :=
  [("CONTAINS", "contains"),
   ("PARENTS_TO", "parents_to"),
   ("USES_SOURCE", "uses_source"),
   ("DRIVES_WITH_EXPRESSION", "drives_with_expression"),
   ("HAS_KEYFRAME", "has_keyframe"),
   ("RENDERS", "renders"),
   ("REFERENCES_IN_EXPRESSION", "references_in_expression"),
   ("SIMILAR_NAME", "similar_name"),
   ("SIMILAR_FUNCTION", "similar_function")]

/-- A value stored in `embeddings_map` by `_generate_embeddings`: the
vector (abstracted to `V`), the text, content type, node id and field. -/
structure EmbEntry (V : Type) where
  vector : V
  text : String
  type : String
  node_id : String
  field : String
deriving DecidableEq

/-- The `embeddings_map` dictionary: an association list keyed by
`f"{content_id}_{field}"`; insertion at the head models dict overwrite
(`List.lookup` finds the most recent binding). -/
abbrev EmbMap (V : Type) := List (String × EmbEntry V)

/-- A content item can be processed without raising `KeyError` iff all four
required keys are present. -/
def validContent (c : RawContent) : Bool :=
  c.id.isSome && c.field.isSome && c.content.isSome && c.type.isSome

/-- Loop body of `_generate_embeddings`: each valid item inserts one entry
into the map and increments `embeddings_generated`; the first invalid item
raises `KeyError`, which the surrounding `except` turns into returning the
empty map (the statistics increments made so far are kept, the map built so
far is discarded). The RNG draw `np.random.rand(768)` is abstracted by
`mkVec`. -/
def generateEmbeddingsAux {V : Type} (mkVec : RawContent → V) :
    GraphStats → List RawContent → EmbMap V → GraphStats × EmbMap V
  | s, [], acc => (s, acc)
  | s, c :: rest, acc =>
    match c.id, c.field, c.content, c.type with
    | some i, some f, some text, some ty =>
        generateEmbeddingsAux mkVec
          { s with embeddings_generated := s.embeddings_generated + 1 }
          rest
          ((i ++ "_" ++ f, ⟨mkVec c, text, ty, i, f⟩) :: acc)
    | _, _, _, _ => (s, [])

/-- Entry point of `_generate_embeddings`, starting from an empty map. -/
def generateEmbeddings {V : Type} (mkVec : RawContent → V)
    (s : GraphStats) (items : List RawContent) : GraphStats × EmbMap V :=
  generateEmbeddingsAux mkVec s items []

/-- The map `_generate_embeddings` builds, in isolation from the statistics
threading (same recursion as `generateEmbeddingsAux`, map component only). -/
def embMapAux {V : Type} (mkVec : RawContent → V) :
    List RawContent → EmbMap V → EmbMap V
  | [], acc => acc
  | c :: rest, acc =>
    match c.id, c.field, c.content, c.type with
    | some i, some f, some text, some ty =>
        embMapAux mkVec rest ((i ++ "_" ++ f, ⟨mkVec c, text, ty, i, f⟩) :: acc)
    | _, _, _, _ => []

/-- The map returned by `_generate_embeddings` for a given content list. -/
def embMapOf {V : Type} (mkVec : RawContent → V)
    (items : List RawContent) : EmbMap V :=
  embMapAux mkVec items []

/-- A node record as handed to `_create_helix_node`: HelixDB schema type,
`node_data` fields, and the optional primary (`name`-field) embedding. -/
structure HelixNode (V : Type) where
  helixType : String
  id : String
  name : String
  type : String
  properties : List (String × String)
  embedding : Option V
deriving DecidableEq

/-- An edge record as handed to `_create_helix_edge`. -/
structure HelixEdge where
  fromId : String
  toId : String
  edgeType : String
  properties : List (String × String)
deriving DecidableEq

/-- Body of the `try` block of `_ingest_nodes` for one node: `none` iff the
`id` or `type` key is missing (the `KeyError` case), otherwise the node
record built by the code (unknown types map to `ae_unknown`, the primary
embedding is looked up under `f"{node_id}_name"`). -/
def mkHelixNode {V : Type} (m : EmbMap V) (n : RawNode) : Option (HelixNode V) :=
  match n.id, n.type with
  | some nid, some ntype =>
      some { helixType := (nodeTypes.lookup ntype).getD "ae_unknown"
             id := nid
             name := ((n.properties.getD []).lookup "name").getD ""
             type := ntype
             properties := n.properties.getD []
             embedding := (m.lookup (nid ++ "_name")).map EmbEntry.vector }
  | _, _ => none

/-- A node can be created without raising: both required keys present. -/
def validNode (n : RawNode) : Bool :=
  n.id.isSome && n.type.isSome

/-- The `_ingest_nodes` loop: each node is created (incrementing
`nodes_created`) or, on a per-item exception, skipped with `errors`
incremented; the loop always continues with the remaining nodes. Returns
the final statistics and the list of node records created in the store. -/
def ingestNodes {V : Type} (m : EmbMap V) :
    GraphStats → List RawNode → GraphStats × List (HelixNode V)
  | s, [] => (s, [])
  | s, n :: ns =>
    match mkHelixNode m n with
    | some hn =>
        let r := ingestNodes m { s with nodes_created := s.nodes_created + 1 } ns
        (r.1, hn :: r.2)
    | none => ingestNodes m { s with errors := s.errors + 1 } ns

/-- Body of the `try` block of `_ingest_edges` for one edge: `none` iff the
`from`, `to` or `type` key is missing, otherwise the edge record built by
the code (unknown edge types map to `unknown_relation`). Note that no
endpoint lookup of any kind is performed. -/
def mkHelixEdge (e : RawEdge) : Option HelixEdge :=
  match e.fromId, e.toId, e.type with
  | some f, some t, some ty =>
      some { fromId := f
             toId := t
             edgeType := (edgeTypes.lookup ty).getD "unknown_relation"
             properties := e.properties.getD [] }
  | _, _, _ => none

/-- An edge can be created without raising: the three required keys present. -/
def validEdge (e : RawEdge) : Bool :=
  e.fromId.isSome && e.toId.isSome && e.type.isSome

/-- The `_ingest_edges` loop: each edge is created (incrementing
`edges_created`) or, on a per-item exception, skipped with `errors`
incremented; the loop always continues. Returns the final statistics and
the list of edge records created in the store. -/
def ingestEdges : GraphStats → List RawEdge → GraphStats × List HelixEdge
  | s, [] => (s, [])
  | s, e :: es =>
    match mkHelixEdge e with
    | some he =>
        let r := ingestEdges { s with edges_created := s.edges_created + 1 } es
        (r.1, he :: r.2)
    | none => ingestEdges { s with errors := s.errors + 1 } es

/-- The layer node types related enough for similarity comparison
(the `layer_types` set in `_should_compute_similarity`). -/
def layerTypes : List String :=
  ["AVLayer", "TextLayer", "ShapeLayer", "CameraLayer", "LightLayer"]

/-- The property node types related enough for similarity comparison
(the `property_types` set in `_should_compute_similarity`). -/
def propertyTypes : List String :=
  ["Property", "PropertyGroup"]

/-- The `_should_compute_similarity` predicate: identical types, or both
layer types, or both property types. -/
def shouldComputeSimilarity (type1 type2 : String) : Bool :=
  if type1 = type2 then true
  else if decide (type1 ∈ layerTypes) && decide (type2 ∈ layerTypes) then true
  else if decide (type1 ∈ propertyTypes) && decide (type2 ∈ propertyTypes) then true
  else false

/-- An element of the `nodes_with_embeddings` list assembled by
`_compute_semantic_relationships`: external id, AE type, name, and the
embedding vector (abstracted to `V`). -/
structure EmbNode (V : Type) where
  id : String
  type : String
  name : String
  embedding : V
deriving DecidableEq

/-- A similarity edge as emitted by `_compute_semantic_relationships`:
the two endpoint nodes (node1 appearing strictly before node2 in the input
list) and the `similarity_score`; each such record is materialized through
`_create_helix_edge(node1.id, node2.id, "similar_name", {...})`. -/
structure SimEdge (V K : Type) where
  node1 : EmbNode V
  node2 : EmbNode V
  score : K
deriving DecidableEq

/-- The nested pair loop of `_compute_semantic_relationships`: for each
node `n` and each later node `m`, when `_should_compute_similarity` holds
and the similarity exceeds the threshold, one similarity edge is emitted.
The score type `K` is any linear order (the code computes floating-point
cosine similarity; the claims proved over this loop hold for every
similarity function and threshold). -/
def simPairsFrom {V K : Type} [LinearOrder K] (simf : V → V → K) (threshold : K) :
    List (EmbNode V) → List (SimEdge V K)
  | [] => []
  | n :: rest =>
      (rest.filter (fun m =>
          shouldComputeSimilarity n.type m.type &&
            decide (threshold < simf n.embedding m.embedding))).map
        (fun m => ⟨n, m, simf n.embedding m.embedding⟩)
        ++ simPairsFrom simf threshold rest

/-- The hard-coded `similarity_threshold = 0.7`. -/
def similarityThreshold : ℚ := 7 / 10

/-- The extraction loop at the top of `_compute_semantic_relationships`:
for every node, `node['id']` is read unguarded (`KeyError`, i.e. `.error`,
when absent); when the `f"{node_id}_name"` key is in the embeddings map,
`node['type']` is read unguarded as well and the node joins the list.
The raised error is not caught inside this function. -/
def extractEmbNodes {V : Type} (m : EmbMap V) :
    List RawNode → Except Unit (List (EmbNode V))
  | [] => .ok []
  | n :: rest =>
    match n.id with
    | none => .error ()
    | some nid =>
      match m.lookup (nid ++ "_name") with
      | some entry =>
        match n.type with
        | none => .error ()
        | some ntype =>
            (extractEmbNodes m rest).map
              (fun l => ⟨nid, ntype,
                         ((n.properties.getD []).lookup "name").getD "",
                         entry.vector⟩ :: l)
      | none => extractEmbNodes m rest

/-- The whole `_compute_semantic_relationships` phase: extract the nodes
with embeddings, then run the pair loop at threshold 0.7. The similarity
function is the abstracted `_cosine_similarity` on the abstracted vectors. -/
def computeSemanticRelationships {V : Type} (simf : V → V → ℚ) (m : EmbMap V)
    (nodes : List RawNode) : Except Unit (List (SimEdge V ℚ)) :=
  (extractEmbNodes m nodes).map (simPairsFrom simf similarityThreshold)

/-- The five phases started by `ingest_project`, in the role the spec
assigns them (schema, embeddings, nodes, edges, similarity). -/
inductive Phase where
  | schemaInit
  | embeddingGen
  | nodeMat
  | edgeMat
  | similarityComp
deriving DecidableEq

/-- Everything a successful `ingest_project` run has created in the store:
the node records, the edge records from the input `edges` list, and the
similarity edge records. -/
structure RunOutput (V : Type) where
  helixNodes : List (HelixNode V)
  helixEdges : List HelixEdge
  simEdges : List (SimEdge V ℚ)
deriving DecidableEq

/-- The `ingest_project` method. `start_time` is set first; a false
`success` flag or a missing `data` key raises, which the outer `except`
turns into an error increment with no result. Otherwise the phases run in
the source order: `_initialize_schema` (which swallows its own errors and
touches no statistics), `_generate_embeddings`, `_ingest_nodes`,
`_ingest_edges`, `_compute_semantic_relationships`; the returned trace
lists the phases in the order they begin. An uncaught error in the
similarity phase reaches the outer `except`: one more error, no result,
`end_time` not set. On success `end_time` is set and the statistics are
returned together with the created records. -/
def ingestProjectRun {V : Type} (simf : V → V → ℚ) (mkVec : RawContent → V)
    (s : GraphStats) (inp : ExportResult) (t0 t1 : ℚ) :
    GraphStats × List Phase × Option (RunOutput V) :=
  let s0 := { s with start_time := t0 }
  if !inp.success then
    ({ s0 with errors := s0.errors + 1 }, [], none)
  else
    match inp.data with
    | none => ({ s0 with errors := s0.errors + 1 }, [], none)
    | some pd =>
      let tr := [Phase.schemaInit, Phase.embeddingGen, Phase.nodeMat,
                 Phase.edgeMat, Phase.similarityComp]
      let em := generateEmbeddings mkVec s0 pd.embedding_content
      let nd := ingestNodes em.2 em.1 pd.nodes
      let ed := ingestEdges nd.1 pd.edges
      match computeSemanticRelationships simf em.2 pd.nodes with
      | .error _ => ({ ed.1 with errors := ed.1.errors + 1 }, tr, none)
      | .ok simEdges =>
          ({ ed.1 with end_time := t1 }, tr, some ⟨nd.2, ed.2, simEdges⟩)

/-- The dot product `np.dot(a, b)` of two vectors, with the float entries
modelled as reals. -/
noncomputable def dotProduct (a b : List ℝ) : ℝ :=
  (List.zipWith (fun x y => x * y) a b).sum

/-- The Euclidean norm `np.linalg.norm(a)`: the square root of the sum of
the squared entries. -/
noncomputable def vecNorm (a : List ℝ) : ℝ :=
  Real.sqrt (dotProduct a a)

open Classical in
/-- The `_cosine_similarity` function: `0.0` when either norm is zero,
otherwise the dot product divided by the product of the norms. -/
noncomputable def cosineSimilarity (a b : List ℝ) : ℝ :=
  let dp := dotProduct a b
  let na := vecNorm a
  let nb := vecNorm b
  if na = 0 ∨ nb = 0 then 0 else dp / (na * nb)

/-!
Embedding of the traversal layer `mcp_ae_graph_walker.py`. Its helper
functions are simulations that return hard-coded data; they are embedded
verbatim. The graph store itself (HelixDB) is an external collaborator.
-/

/-- A property-group record returned by the `_get_layer_properties`
simulation. -/
structure StubPropGroup where
  name : String
  type : String
deriving DecidableEq

/-- A keyframe record returned by the `_get_layer_keyframes` simulation. -/
structure StubLayerKeyframe where
  property : String
  time : ℚ
  value : List ℚ
deriving DecidableEq

/-- The `_get_layer_properties` helper: always the same two records. -/
def getLayerProperties (connectionId layerId : String) : List StubPropGroup :=
  [⟨"Transform", "PropertyGroup"⟩, ⟨"Opacity", "Property"⟩]

/-- The `_get_layer_keyframes` helper: always the same two records. -/
def getLayerKeyframes (connectionId layerId : String) : List StubLayerKeyframe :=
  [⟨"Position", 0, [960, 540]⟩, ⟨"Position", 2, [1200, 540]⟩]

/-- A layer record returned by the `_find_layers_at_time` simulation. -/
structure StubActiveLayer where
  id : String
  name : String
  in_point : ℚ
  out_point : ℚ
deriving DecidableEq

/-- A keyframe record returned by the `_find_keyframes_at_time`
simulation. -/
structure StubActiveKeyframe where
  property_id : String
  time : ℚ
  value : List ℚ
deriving DecidableEq

/-- An expression record returned by the `_find_expressions_at_time`
simulation. -/
structure StubActiveExpression where
  expression_id : String
  property : String
  active : Bool
deriving DecidableEq

/-- The `_find_layers_at_time` helper. Both `time_seconds` and
`composition_id` are ignored: the body returns the single hard-coded layer
`layer_1` with `in_point 0` and `out_point 5` unconditionally. -/
def findLayersAtTime (connectionId : String) (timeSeconds : ℚ)
    (compositionId : Option String) : List StubActiveLayer :=
  [⟨"layer_1", "Active Layer", 0, 5⟩]

/-- The `_find_keyframes_at_time` helper: one record echoing the queried
time. -/
def findKeyframesAtTime (connectionId : String) (timeSeconds : ℚ) :
    List StubActiveKeyframe :=
  [⟨"prop_1", timeSeconds, [100, 200]⟩]

/-- The `_find_expressions_at_time` helper: one hard-coded record. -/
def findExpressionsAtTime (connectionId : String) (timeSeconds : ℚ) :
    List StubActiveExpression :=
  [⟨"expr_1", "Position", true⟩]

/-- The result document built by `walk_time_relationships`. -/
structure TimeResult where
  time_seconds : ℚ
  composition_id : Option String
  active_layers : List StubActiveLayer
  active_keyframes : List StubActiveKeyframe
  active_expressions : List StubActiveExpression
deriving DecidableEq

/-- The `walk_time_relationships` tool: fills the result with the three
helper calls (the connection id comes from `get_connection()` and is
irrelevant to all of them). -/
def walkTimeRelationships (timeSeconds : ℚ) (compositionId : Option String) :
    TimeResult :=
  { time_seconds := timeSeconds
    composition_id := compositionId
    active_layers := findLayersAtTime "conn" timeSeconds compositionId
    active_keyframes := findKeyframesAtTime "conn" timeSeconds
    active_expressions := findExpressionsAtTime "conn" timeSeconds }

/-- A node stored in the graph store, as seen by the traversal layer. -/
structure GNode where
  id : String
  name : String
  type : String
  properties : List (String × String)
deriving DecidableEq

/-- An edge stored in the graph store: endpoints and edge label. -/
structure GEdge where
  fromId : String
  toId : String
  label : String
deriving DecidableEq

/-- The graph held by the store. -/
structure Graph where
  nodes : List GNode
  edges : List GEdge
deriving DecidableEq

/-- Modelled from the spec: the Graph Store's single-hop `out_step`
primitive (§6), an external collaborator not implemented in this
repository. From a source node it returns the stored nodes of the
requested type reachable over one edge with the requested label. -/
def outStep (g : Graph) (srcId : String) (label : String) (ntype : String) :
    List GNode :=
  g.nodes.filter (fun n =>
    n.type == ntype &&
      g.edges.any (fun e =>
        e.label == label && e.fromId == srcId && e.toId == n.id))

/-- One `layer_info` entry built by `walk_composition_hierarchy`: the layer
fields plus, gated on the depth parameter, the simulated property groups
(`depth >= 2`) and the simulated keyframes (nested `depth >= 3`). -/
structure HierLayer where
  id : String
  name : String
  type : String
  properties : List (String × String)
  property_groups : Option (List StubPropGroup)
  keyframes : Option (List StubLayerKeyframe)
deriving DecidableEq

/-- The result document built by `walk_composition_hierarchy`. -/
structure HierResult where
  composition : String
  depth : Int
  layers : List HierLayer
deriving DecidableEq

/-- The `walk_composition_hierarchy` tool: one `out_step` over `contains`
edges to `ae_layer` nodes (the query is issued from the composition node,
per the code's `# Start from composition node`), then one `layer_info`
record per returned layer. The property-group and keyframe details come
from the simulation helpers, not from the graph, and are included only at
`depth >= 2` resp. `depth >= 3`. No recursion and no further store access
take place. -/
def walkCompositionHierarchy (g : Graph) (compositionId : String)
    (depth : Int) : HierResult :=
  { composition := compositionId
    depth := depth
    layers :=
      (outStep g compositionId "contains" "ae_layer").map (fun l =>
        { id := l.id
          name := l.name
          type := l.type
          properties := l.properties
          property_groups :=
            if 2 ≤ depth then some (getLayerProperties "conn" l.id) else none
          keyframes :=
            if 2 ≤ depth then
              (if 3 ≤ depth then some (getLayerKeyframes "conn" l.id) else none)
            else none }) }

/-!
Helper lemmas: closed forms for the per-phase loops.
-/

/-- The number of `embeddings_generated` increments `_generate_embeddings`
performs: one per item up to (excluding) the first invalid item. -/
def embDelta : List RawContent → Nat
  | [] => 0
  | c :: rest => if validContent c then embDelta rest + 1 else 0

lemma generateEmbeddingsAux_stats {V : Type} (mkVec : RawContent → V)
    (items : List RawContent) :
    ∀ (s : GraphStats) (acc : EmbMap V),
      (generateEmbeddingsAux mkVec s items acc).1 =
        { s with embeddings_generated := s.embeddings_generated + embDelta items } := by
  induction items with
  | nil => intro s acc; simp [generateEmbeddingsAux, embDelta]
  | cons c rest ih =>
    intro s acc
    obtain ⟨i, f, ct, ty⟩ := c
    obtain ⟨a, b, g, d, e, h⟩ := s
    cases i <;> cases f <;> cases ct <;> cases ty <;>
      simp [generateEmbeddingsAux, embDelta, validContent, ih] <;> omega

lemma generateEmbeddingsAux_map {V : Type} (mkVec : RawContent → V)
    (items : List RawContent) :
    ∀ (s : GraphStats) (acc : EmbMap V),
      (generateEmbeddingsAux mkVec s items acc).2 = embMapAux mkVec items acc := by
  induction items with
  | nil => intro s acc; simp [generateEmbeddingsAux, embMapAux]
  | cons c rest ih =>
    intro s acc
    obtain ⟨i, f, ct, ty⟩ := c
    cases i <;> cases f <;> cases ct <;> cases ty <;>
      simp [generateEmbeddingsAux, embMapAux, ih]

lemma generateEmbeddingsAux_failure {V : Type} (mkVec : RawContent → V)
    (xs : List RawContent) :
    ∀ (s : GraphStats) (acc : EmbMap V) (bad : RawContent)
      (ys : List RawContent),
      (∀ x ∈ xs, validContent x = true) → validContent bad = false →
      generateEmbeddingsAux mkVec s (xs ++ bad :: ys) acc =
        ({ s with embeddings_generated := s.embeddings_generated + xs.length },
         []) := by
  induction xs with
  | nil =>
    intro s acc bad ys _ hbad
    obtain ⟨i, f, ct, ty⟩ := bad
    cases i <;> cases f <;> cases ct <;> cases ty <;>
      simp_all [generateEmbeddingsAux, validContent]
  | cons c rest ih =>
    intro s acc bad ys hval hbad
    have hc : validContent c = true := hval c (by simp)
    obtain ⟨i, f, ct, ty⟩ := c
    cases i <;> cases f <;> cases ct <;> cases ty <;> simp [validContent] at hc
    simp only [List.cons_append, generateEmbeddingsAux, List.append_eq]
    rw [ih _ _ bad ys (fun x hx => hval x (by simp [hx])) hbad]
    obtain ⟨a, b, g, d, e, h⟩ := s
    simp
    omega

lemma ingestNodes_spec {V : Type} (m : EmbMap V) (ns : List RawNode) :
    ∀ (s : GraphStats),
      ingestNodes m s ns =
        ({ s with
            nodes_created := s.nodes_created + ns.countP validNode,
            errors := s.errors + ns.countP (fun n => !validNode n) },
         ns.filterMap (mkHelixNode m)) := by
  induction ns with
  | nil => intro s; simp [ingestNodes, List.countP_nil]
  | cons n ns ih =>
    intro s
    obtain ⟨i, ty, props⟩ := n
    obtain ⟨a, b, g, d, e, h⟩ := s
    cases i <;> cases ty <;>
      simp [ingestNodes, mkHelixNode, validNode, ih, List.countP_cons] <;> omega

lemma ingestEdges_spec (es : List RawEdge) :
    ∀ (s : GraphStats),
      ingestEdges s es =
        ({ s with
            edges_created := s.edges_created + es.countP validEdge,
            errors := s.errors + es.countP (fun e => !validEdge e) },
         es.filterMap mkHelixEdge) := by
  induction es with
  | nil => intro s; simp [ingestEdges, List.countP_nil]
  | cons e es ih =>
    intro s
    obtain ⟨f, t, ty, props⟩ := e
    obtain ⟨a, b, g, d, e', h⟩ := s
    cases f <;> cases t <;> cases ty <;>
      simp [ingestEdges, mkHelixEdge, validEdge, ih, List.countP_cons] <;> omega

lemma length_filter_mono {α : Type} (p q : α → Bool)
    (h : ∀ a, p a = true → q a = true) :
    ∀ l : List α, (l.filter p).length ≤ (l.filter q).length := by
  intro l
  induction l with
  | nil => simp
  | cons a l ih =>
    cases hp : p a with
    | false =>
      cases hq : q a <;> simp [List.filter_cons, hp, hq] <;> omega
    | true =>
      have hq := h a hp
      simp [List.filter_cons, hp, hq]
      all_goals omega

lemma shouldComputeSimilarity_imp {a b : String}
    (h : shouldComputeSimilarity a b = true) :
    a = b ∨ (a ∈ layerTypes ∧ b ∈ layerTypes) ∨
      (a ∈ propertyTypes ∧ b ∈ propertyTypes) := by
  unfold shouldComputeSimilarity at h
  split_ifs at h with h1 h2 h3
  · exact Or.inl h1
  · rw [Bool.and_eq_true, decide_eq_true_eq, decide_eq_true_eq] at h2
    exact Or.inr (Or.inl h2)
  · rw [Bool.and_eq_true, decide_eq_true_eq, decide_eq_true_eq] at h3
    exact Or.inr (Or.inr h3)

lemma extractEmbNodes_isOk {V : Type} (m : EmbMap V) :
    ∀ ns : List RawNode,
      (∀ n ∈ ns, n.id.isSome = true ∧
        (n.type.isSome = true ∨
          (m.lookup ((n.id.getD "") ++ "_name")).isNone = true)) →
      ∃ l, extractEmbNodes m ns = .ok l := by
  intro ns
  induction ns with
  | nil => exact fun _ => ⟨[], rfl⟩
  | cons n rest ih =>
    intro h
    obtain ⟨hid, hty⟩ := h n (by simp)
    obtain ⟨l, hl⟩ := ih (fun x hx => h x (by simp [hx]))
    cases hn : n.id with
    | none => rw [hn] at hid; simp at hid
    | some nid =>
      rw [hn] at hty
      cases hm : m.lookup (nid ++ "_name") with
      | none => exact ⟨l, by simp [extractEmbNodes, hn, hm, hl]⟩
      | some entry =>
        rcases hty with hty | hnone
        · cases ht : n.type with
          | none => rw [ht] at hty; simp at hty
          | some tv =>
            refine ⟨⟨nid, tv, ((n.properties.getD []).lookup "name").getD "",
                     entry.vector⟩ :: l, ?_⟩
            simp [extractEmbNodes, hn, hm, ht, hl, Except.map]
        · simp [hm] at hnone

lemma ingestProjectRun_fail {V : Type} (simf : V → V → ℚ)
    (mkVec : RawContent → V) (s : GraphStats) (d : Option ProjectData)
    (t0 t1 : ℚ) :
    ingestProjectRun simf mkVec s ⟨false, d⟩ t0 t1 =
      ({ s with start_time := t0, errors := s.errors + 1 }, [], none) := by
  simp [ingestProjectRun]

lemma ingestProjectRun_nodata {V : Type} (simf : V → V → ℚ)
    (mkVec : RawContent → V) (s : GraphStats) (t0 t1 : ℚ) :
    ingestProjectRun simf mkVec s ⟨true, none⟩ t0 t1 =
      ({ s with start_time := t0, errors := s.errors + 1 }, [], none) := by
  simp [ingestProjectRun]

lemma ingestProjectRun_ok {V : Type} (simf : V → V → ℚ)
    (mkVec : RawContent → V) (s : GraphStats) (pd : ProjectData)
    (t0 t1 : ℚ) (se : List (SimEdge V ℚ))
    (hce : computeSemanticRelationships simf
             (embMapOf mkVec pd.embedding_content) pd.nodes = .ok se) :
    ingestProjectRun simf mkVec s ⟨true, some pd⟩ t0 t1 =
      ({ s with
          nodes_created := s.nodes_created + pd.nodes.countP validNode,
          edges_created := s.edges_created + pd.edges.countP validEdge,
          embeddings_generated :=
            s.embeddings_generated + embDelta pd.embedding_content,
          errors := s.errors + (pd.nodes.countP (fun n => !validNode n)
            + pd.edges.countP (fun e => !validEdge e)),
          start_time := t0,
          end_time := t1 },
       [Phase.schemaInit, Phase.embeddingGen, Phase.nodeMat, Phase.edgeMat,
        Phase.similarityComp],
       some ⟨pd.nodes.filterMap
               (mkHelixNode (embMapOf mkVec pd.embedding_content)),
             pd.edges.filterMap mkHelixEdge, se⟩) := by
  have hmap : (generateEmbeddings mkVec { s with start_time := t0 }
      pd.embedding_content).2 = embMapOf mkVec pd.embedding_content :=
    generateEmbeddingsAux_map mkVec pd.embedding_content _ _
  have hstats := generateEmbeddingsAux_stats mkVec pd.embedding_content
    { s with start_time := t0 } ([] : EmbMap V)
  simp only [ingestProjectRun, Bool.not_true, Bool.false_eq_true, if_false,
    generateEmbeddings] at hmap hstats ⊢
  rw [hmap, hstats, ingestNodes_spec, ingestEdges_spec, hce]
  obtain ⟨a, b, g, d, e, f⟩ := s
  simp
  omega

lemma ingestProjectRun_simError {V : Type} (simf : V → V → ℚ)
    (mkVec : RawContent → V) (s : GraphStats) (pd : ProjectData)
    (t0 t1 : ℚ) (err : Unit)
    (hce : computeSemanticRelationships simf
             (embMapOf mkVec pd.embedding_content) pd.nodes = .error err) :
    ingestProjectRun simf mkVec s ⟨true, some pd⟩ t0 t1 =
      ({ s with
          nodes_created := s.nodes_created + pd.nodes.countP validNode,
          edges_created := s.edges_created + pd.edges.countP validEdge,
          embeddings_generated :=
            s.embeddings_generated + embDelta pd.embedding_content,
          errors := s.errors + (pd.nodes.countP (fun n => !validNode n)
            + pd.edges.countP (fun e => !validEdge e)) + 1,
          start_time := t0 },
       [Phase.schemaInit, Phase.embeddingGen, Phase.nodeMat, Phase.edgeMat,
        Phase.similarityComp],
       none) := by
  have hmap : (generateEmbeddings mkVec { s with start_time := t0 }
      pd.embedding_content).2 = embMapOf mkVec pd.embedding_content :=
    generateEmbeddingsAux_map mkVec pd.embedding_content _ _
  have hstats := generateEmbeddingsAux_stats mkVec pd.embedding_content
    { s with start_time := t0 } ([] : EmbMap V)
  simp only [ingestProjectRun, Bool.not_true, Bool.false_eq_true, if_false,
    generateEmbeddings] at hmap hstats ⊢
  rw [hmap, hstats, ingestNodes_spec, ingestEdges_spec, hce]
  obtain ⟨a, b, g, d, e, f⟩ := s
  simp
  omega

/-!
Concrete fixtures used by counterexamples and witnesses. The vector type is
instantiated with `Unit` (vector values are irrelevant to every claim).
-/

/-- A constant similarity function scoring 0. -/
def simConst : Unit → Unit → ℚ := fun _ _ => 0

/-- A constant similarity function scoring 2 (above any integer threshold
used in the witnesses). -/
def simTwo : Unit → Unit → ℚ := fun _ _ => 2

/-- The trivial vector generator. -/
def vecConst : RawContent → Unit := fun _ => ()

/-- A `Property` node with an embedding. -/
def nodeProp : EmbNode Unit := ⟨"a", "Property", "x", ()⟩

/-- A `PropertyGroup` node with an embedding. -/
def nodePropGroup : EmbNode Unit := ⟨"b", "PropertyGroup", "y", ()⟩

/-- A two-node store: a composition containing one layer. -/
def gDemo : Graph :=
  ⟨[⟨"c", "Main", "ae_composition", []⟩, ⟨"l", "Layer1", "ae_layer", []⟩],
   [⟨"c", "l", "contains"⟩]⟩

/-- A store in which CONTAINS and USES_SOURCE together form a cycle
(`c → l → c`). -/
def gCyclic : Graph :=
  ⟨[⟨"c", "Main", "ae_composition", []⟩, ⟨"l", "Layer1", "ae_layer", []⟩],
   [⟨"c", "l", "contains"⟩, ⟨"l", "c", "uses_source"⟩]⟩

/-!
Claim theorems.
-/

/-- C1, counterexample: the claim says an edge whose endpoints were not
materialized as nodes in the same run is skipped, warned about, and counted
in `errors`. In a run whose `nodes` list is empty, the edge `x → y` (whose
endpoints therefore cannot have been materialized) is nevertheless created
in the store, and `errors` stays 0. -/
theorem C1_unresolved_endpoint_counterexample :
    (ingestProjectRun simConst vecConst initStats
        ⟨true, some ⟨[], [⟨some "x", some "y", some "CONTAINS", none⟩], []⟩⟩
        0 1).2.2 =
      some ⟨[], [⟨"x", "y", "contains", []⟩], []⟩ ∧
    (ingestProjectRun simConst vecConst initStats
        ⟨true, some ⟨[], [⟨some "x", some "y", some "CONTAINS", none⟩], []⟩⟩
        0 1).1.errors = 0 := by
  constructor <;> decide

/-- C1, amended: edge materialization performs no endpoint-resolution
lookup at all. Every edge whose `from`, `to` and `type` keys are present is
created in the store — regardless of which nodes were materialized, which
the statement shows by not depending on any node data — and only an edge
missing one of those keys is skipped, with `errors` incremented once for
it; no edge is ever fatal to the loop (the function is total and processes
the whole list). -/
theorem C1_edge_creation_unconditional (s : GraphStats) (es : List RawEdge) :
    ingestEdges s es =
      ({ s with
          edges_created := s.edges_created + es.countP validEdge,
          errors := s.errors + es.countP (fun e => !validEdge e) },
       es.filterMap mkHelixEdge) :=
  ingestEdges_spec es s

/-- C2, counterexample: the claim says the phase order is schema → nodes →
edges → embeddings → similarity. On a successful run the trace of begun
phases is schema → embeddings → nodes → edges → similarity, which differs
from the claimed order. -/
theorem C2_phase_order_counterexample :
    (ingestProjectRun simConst vecConst initStats ⟨true, some ⟨[], [], []⟩⟩
        0 1).2.1 =
      [Phase.schemaInit, Phase.embeddingGen, Phase.nodeMat, Phase.edgeMat,
       Phase.similarityComp] ∧
    [Phase.schemaInit, Phase.embeddingGen, Phase.nodeMat, Phase.edgeMat,
     Phase.similarityComp] ≠
      [Phase.schemaInit, Phase.nodeMat, Phase.edgeMat, Phase.embeddingGen,
       Phase.similarityComp] := by
  constructor <;> decide

/-- C2, amended: every ingestion run that gets past loading the export
document (success flag set, data present) begins its phases in this order:
schema initialization, then embedding generation, then node
materialization, then edge materialization, then similarity computation;
each later phase begins only after the preceding one completed (the phases
run sequentially in the embedded straight-line pipeline). -/
theorem C2_phase_order_amended {V : Type} (simf : V → V → ℚ)
    (mkVec : RawContent → V) (s : GraphStats) (pd : ProjectData)
    (t0 t1 : ℚ) :
    (ingestProjectRun simf mkVec s ⟨true, some pd⟩ t0 t1).2.1 =
      [Phase.schemaInit, Phase.embeddingGen, Phase.nodeMat, Phase.edgeMat,
       Phase.similarityComp] := by
  rcases hce : computeSemanticRelationships simf
      (embMapOf mkVec pd.embedding_content) pd.nodes with err | se
  · rw [ingestProjectRun_simError simf mkVec s pd t0 t1 err hce]
  · rw [ingestProjectRun_ok simf mkVec s pd t0 t1 se hce]

/-- C3: for a fixed node list, the number of similarity edges emitted by
the pair loop of `_compute_semantic_relationships` is non-increasing in
the threshold, for every similarity function into a linear order. -/
theorem C3_threshold_monotonicity {V K : Type} [LinearOrder K]
    (simf : V → V → K) (t1 t2 : K) (ns : List (EmbNode V)) (h : t1 ≤ t2) :
    (simPairsFrom simf t2 ns).length ≤ (simPairsFrom simf t1 ns).length := by
  induction ns with
  | nil => simp [simPairsFrom]
  | cons n rest ih =>
    simp only [simPairsFrom, List.length_append, List.length_map]
    have hf := length_filter_mono
      (fun m => shouldComputeSimilarity n.type m.type &&
        decide (t2 < simf n.embedding m.embedding))
      (fun m => shouldComputeSimilarity n.type m.type &&
        decide (t1 < simf n.embedding m.embedding))
      (fun m hm => by
        rw [Bool.and_eq_true, decide_eq_true_eq] at hm
        rw [Bool.and_eq_true, decide_eq_true_eq]
        exact ⟨hm.1, lt_of_le_of_lt h hm.2⟩) rest
    omega

/-- C3, witness: at thresholds 0 ≤ 1 over two property nodes scored 2, the
monotonicity theorem applies. -/
theorem C3_witness :
    (0 : ℚ) ≤ 1 ∧
    (simPairsFrom simTwo (1 : ℚ) [nodeProp, nodePropGroup]).length ≤
      (simPairsFrom simTwo (0 : ℚ) [nodeProp, nodePropGroup]).length :=
  ⟨by decide,
   C3_threshold_monotonicity simTwo 0 1 [nodeProp, nodePropGroup] (by decide)⟩

/-- C4: `_cosine_similarity` returns the dot product divided by the
product of the norms whenever both norms are nonzero, and exactly 0 when
either norm is zero. -/
theorem C4_cosine_similarity_spec (a b : List ℝ) :
    ((vecNorm a ≠ 0 ∧ vecNorm b ≠ 0) →
      cosineSimilarity a b = dotProduct a b / (vecNorm a * vecNorm b)) ∧
    ((vecNorm a = 0 ∨ vecNorm b = 0) → cosineSimilarity a b = 0) := by
  constructor
  · intro h
    simp only [cosineSimilarity]
    rw [if_neg (not_or.mpr ⟨h.1, h.2⟩)]
  · intro h
    simp only [cosineSimilarity]
    rw [if_pos h]

/-- C4, witness: on the one-entry vectors `[1]`, both norms are 1, so the
quotient branch applies. -/
theorem C4_witness :
    (vecNorm [(1 : ℝ)] ≠ 0 ∧ vecNorm [(1 : ℝ)] ≠ 0) ∧
    cosineSimilarity [(1 : ℝ)] [(1 : ℝ)] =
      dotProduct [(1 : ℝ)] [(1 : ℝ)] / (vecNorm [(1 : ℝ)] * vecNorm [(1 : ℝ)]) := by
  have h1 : vecNorm [(1 : ℝ)] = 1 := by
    simp [vecNorm, dotProduct]
  have hne : vecNorm [(1 : ℝ)] ≠ 0 := by rw [h1]; exact one_ne_zero
  exact ⟨⟨hne, hne⟩, (C4_cosine_similarity_spec [(1 : ℝ)] [(1 : ℝ)]).1 ⟨hne, hne⟩⟩

/-- C5: every similarity edge emitted by the pair loop connects two nodes
whose types are in the same similarity-eligible class: identical types, or
both layer types, or both property types. -/
theorem C5_similarity_edges_type_eligible {V K : Type} [LinearOrder K]
    (simf : V → V → K) (t : K) (ns : List (EmbNode V)) (e : SimEdge V K)
    (h : e ∈ simPairsFrom simf t ns) :
    e.node1.type = e.node2.type ∨
      (e.node1.type ∈ layerTypes ∧ e.node2.type ∈ layerTypes) ∨
      (e.node1.type ∈ propertyTypes ∧ e.node2.type ∈ propertyTypes) := by
  induction ns with
  | nil => simp [simPairsFrom] at h
  | cons n rest ih =>
    rw [simPairsFrom, List.mem_append] at h
    rcases h with h | h
    · obtain ⟨m, hm, rfl⟩ := List.mem_map.mp h
      have hp := (List.mem_filter.mp hm).2
      rw [Bool.and_eq_true] at hp
      exact shouldComputeSimilarity_imp hp.1
    · exact ih h

/-- C5, witness: the edge the loop emits between a `Property` node and a
`PropertyGroup` node satisfies the eligibility disjunction (via the
property class). -/
theorem C5_witness :
    (⟨nodeProp, nodePropGroup, 2⟩ : SimEdge Unit ℚ) ∈
      simPairsFrom simTwo (0 : ℚ) [nodeProp, nodePropGroup] ∧
    (nodeProp.type = nodePropGroup.type ∨
      (nodeProp.type ∈ layerTypes ∧ nodePropGroup.type ∈ layerTypes) ∨
      (nodeProp.type ∈ propertyTypes ∧ nodePropGroup.type ∈ propertyTypes)) :=
  ⟨by decide,
   C5_similarity_edges_type_eligible simTwo 0 [nodeProp, nodePropGroup]
     ⟨nodeProp, nodePropGroup, 2⟩ (by decide)⟩

/-- C6, counterexample: the claim says a failing node never halts the run,
costs exactly one error increment, and the run still reports its aggregate
statistics. Ingesting a single node whose `id` key is missing makes the
later similarity phase raise an uncaught `KeyError` on `node['id']`: the
run halts without a result, and `errors` is incremented twice for the one
failing item (once in `_ingest_nodes`, once in the outer handler). -/
theorem C6_node_failure_fatal_counterexample :
    (ingestProjectRun simConst vecConst initStats
        ⟨true, some ⟨[⟨none, none, none⟩], [], []⟩⟩ 0 1).2.2 = none ∧
    (ingestProjectRun simConst vecConst initStats
        ⟨true, some ⟨[⟨none, none, none⟩], [], []⟩⟩ 0 1).1.errors = 2 := by
  constructor <;> decide

/-- C6, amended: per-item failures in node and edge materialization are
non-fatal and each increments `errors` exactly once, with all remaining
items still processed and the aggregate statistics reported — provided
every node carries an `id` key and, when its `type` key is missing, has no
name-embedding in the map (otherwise the similarity phase later re-reads
the offending node's missing key unguarded, halting the run and
incrementing `errors` a second time, as the counterexample shows). -/
theorem C6_per_item_failures_amended {V : Type} (simf : V → V → ℚ)
    (mkVec : RawContent → V) (s : GraphStats) (pd : ProjectData)
    (t0 t1 : ℚ)
    (hn : ∀ n ∈ pd.nodes, n.id.isSome = true ∧
      (n.type.isSome = true ∨
        ((embMapOf mkVec pd.embedding_content).lookup
          ((n.id.getD "") ++ "_name")).isNone = true)) :
    (ingestProjectRun simf mkVec s ⟨true, some pd⟩ t0 t1).2.2.isSome = true ∧
    (ingestProjectRun simf mkVec s ⟨true, some pd⟩ t0 t1).1.nodes_created =
      s.nodes_created + pd.nodes.countP validNode ∧
    (ingestProjectRun simf mkVec s ⟨true, some pd⟩ t0 t1).1.edges_created =
      s.edges_created + pd.edges.countP validEdge ∧
    (ingestProjectRun simf mkVec s ⟨true, some pd⟩ t0 t1).1.errors =
      s.errors + (pd.nodes.countP (fun n => !validNode n)
        + pd.edges.countP (fun e => !validEdge e)) := by
  obtain ⟨l, hl⟩ := extractEmbNodes_isOk
    (embMapOf mkVec pd.embedding_content) pd.nodes hn
  have hce : computeSemanticRelationships simf
      (embMapOf mkVec pd.embedding_content) pd.nodes =
      .ok (simPairsFrom simf similarityThreshold l) := by
    simp [computeSemanticRelationships, hl, Except.map]
  rw [ingestProjectRun_ok simf mkVec s pd t0 t1 _ hce]
  simp

/-- C6, witness: a run containing one valid node, one node whose `type`
key is missing (and which has no embedding), and one edge whose `to` key
is missing, completes with a result; the failing node and the failing edge
each cost exactly one error. -/
theorem C6_witness :
    (ingestProjectRun simConst vecConst initStats
        ⟨true, some ⟨[⟨some "a", some "Project", none⟩, ⟨some "bad", none, none⟩],
                     [⟨some "x", none, some "CONTAINS", none⟩], []⟩⟩
        0 1).2.2.isSome = true ∧
    (ingestProjectRun simConst vecConst initStats
        ⟨true, some ⟨[⟨some "a", some "Project", none⟩, ⟨some "bad", none, none⟩],
                     [⟨some "x", none, some "CONTAINS", none⟩], []⟩⟩
        0 1).1.errors = 2 :=
  ⟨(C6_per_item_failures_amended simConst vecConst initStats
      ⟨[⟨some "a", some "Project", none⟩, ⟨some "bad", none, none⟩],
       [⟨some "x", none, some "CONTAINS", none⟩], []⟩ 0 1 (by decide)).1,
   by decide⟩

/-- C7: the claim (and the spec, and the helper's own docstring) say
`walk_time_relationships(t)` returns a layer iff
`layer.inPoint <= t <= layer.outPoint`. The helper `_find_layers_at_time`
ignores both the time and the graph and returns the hard-coded layer
`layer_1` with `in_point 0`, `out_point 5`; at `t = 10` that layer is
returned although `0 ≤ 10 ≤ 5` fails. -/
theorem C7_time_filter_not_implemented :
    (walkTimeRelationships 10 none).active_layers =
      [⟨"layer_1", "Active Layer", 0, 5⟩] ∧
    ¬((0 : ℚ) ≤ 10 ∧ (10 : ℚ) ≤ 5) := by
  constructor <;> decide

/-- C8, counterexample: the claim says the walk never descends beyond the
requested depth, for every requested depth. At requested depth 0 the walk
still performs its layer hop: on a store where composition `c` contains
layer `l`, the node `l` — one CONTAINS level below the start, and distinct
from it — is retrieved. -/
theorem C8_depth_zero_counterexample :
    (walkCompositionHierarchy gDemo "c" 0).layers.map HierLayer.id = ["l"] ∧
    "l" ≠ "c" := by
  constructor <;> decide

/-- C8, amended: for every store with unique node ids, start id and
requested depth — including stores where CONTAINS and USES_SOURCE form a
cycle — `walk_composition_hierarchy` retrieves each node at most once and
every retrieved node is a direct CONTAINS child of the start (the walk is
a single hop, so cycles cannot recur); the depth parameter does not bound
that hop (it happens even at depth ≤ 0) but only gates the simulated
property-group detail (depth ≥ 2) and keyframe detail (depth ≥ 3). -/
theorem C8_single_hop_amended (g : Graph) (compositionId : String)
    (depth : Int) (h : (g.nodes.map GNode.id).Nodup) :
    ((walkCompositionHierarchy g compositionId depth).layers.map
        HierLayer.id).Nodup ∧
    (∀ li ∈ (walkCompositionHierarchy g compositionId depth).layers,
      ∃ e ∈ g.edges,
        e.label = "contains" ∧ e.fromId = compositionId ∧ e.toId = li.id) ∧
    (∀ li ∈ (walkCompositionHierarchy g compositionId depth).layers,
      (li.property_groups.isSome = true ↔ 2 ≤ depth) ∧
      (li.keyframes.isSome = true ↔ 3 ≤ depth)) := by
  refine ⟨?_, ?_, ?_⟩
  · have hmap : (walkCompositionHierarchy g compositionId depth).layers.map
        HierLayer.id =
        (outStep g compositionId "contains" "ae_layer").map GNode.id := by
      simp [walkCompositionHierarchy, List.map_map, Function.comp]
    rw [hmap]
    exact h.sublist ((List.filter_sublist _).map _)
  · intro li hli
    simp only [walkCompositionHierarchy, List.mem_map] at hli
    obtain ⟨l, hl, rfl⟩ := hli
    rw [outStep, List.mem_filter, Bool.and_eq_true] at hl
    obtain ⟨e, he, hee⟩ := List.any_eq_true.mp hl.2.2
    rw [Bool.and_eq_true, Bool.and_eq_true] at hee
    refine ⟨e, he, ?_, ?_, ?_⟩
    · exact eq_of_beq hee.1.1
    · exact eq_of_beq hee.1.2
    · exact eq_of_beq hee.2
  · intro li hli
    simp only [walkCompositionHierarchy, List.mem_map] at hli
    obtain ⟨l, hl, rfl⟩ := hli
    constructor
    · split_ifs with h2 <;> simp [h2]
    · split_ifs with h2 h3 <;> simp <;> omega

/-- C8, witness: on the cyclic store `gCyclic` (CONTAINS `c → l`,
USES_SOURCE `l → c`), the walk at depth 2 retrieves each node at most
once. -/
theorem C8_witness :
    ((walkCompositionHierarchy gCyclic "c" 2).layers.map HierLayer.id).Nodup :=
  (C8_single_hop_amended gCyclic "c" 2 (by decide)).1

/-- C9: the statistics counters of an `AEProjectGraphIngestion` instance
are never reset between runs: after a second successful `ingest_project`
call, the returned counters equal the sum of both runs' per-run counts
(the count each run would report starting from the fresh `initStats`),
while `start_time` and `end_time` hold the second run's times. -/
theorem C9_counters_accumulate {V : Type} (simf : V → V → ℚ)
    (mkVec : RawContent → V) (inp1 inp2 : ExportResult) (t0 t1 t2 t3 : ℚ)
    (h1 : (ingestProjectRun simf mkVec initStats inp1 t0 t1).2.2.isSome = true)
    (h2 : (ingestProjectRun simf mkVec
            (ingestProjectRun simf mkVec initStats inp1 t0 t1).1
            inp2 t2 t3).2.2.isSome = true) :
    (ingestProjectRun simf mkVec
        (ingestProjectRun simf mkVec initStats inp1 t0 t1).1
        inp2 t2 t3).1.nodes_created =
      (ingestProjectRun simf mkVec initStats inp1 t0 t1).1.nodes_created +
        (ingestProjectRun simf mkVec initStats inp2 t2 t3).1.nodes_created ∧
    (ingestProjectRun simf mkVec
        (ingestProjectRun simf mkVec initStats inp1 t0 t1).1
        inp2 t2 t3).1.edges_created =
      (ingestProjectRun simf mkVec initStats inp1 t0 t1).1.edges_created +
        (ingestProjectRun simf mkVec initStats inp2 t2 t3).1.edges_created ∧
    (ingestProjectRun simf mkVec
        (ingestProjectRun simf mkVec initStats inp1 t0 t1).1
        inp2 t2 t3).1.embeddings_generated =
      (ingestProjectRun simf mkVec initStats inp1 t0 t1).1.embeddings_generated +
        (ingestProjectRun simf mkVec initStats inp2 t2 t3).1.embeddings_generated ∧
    (ingestProjectRun simf mkVec
        (ingestProjectRun simf mkVec initStats inp1 t0 t1).1
        inp2 t2 t3).1.errors =
      (ingestProjectRun simf mkVec initStats inp1 t0 t1).1.errors +
        (ingestProjectRun simf mkVec initStats inp2 t2 t3).1.errors ∧
    (ingestProjectRun simf mkVec
        (ingestProjectRun simf mkVec initStats inp1 t0 t1).1
        inp2 t2 t3).1.start_time = t2 ∧
    (ingestProjectRun simf mkVec
        (ingestProjectRun simf mkVec initStats inp1 t0 t1).1
        inp2 t2 t3).1.end_time = t3 := by
  obtain ⟨suc2, data2⟩ := inp2
  cases suc2 with
  | false => rw [ingestProjectRun_fail] at h2; simp at h2
  | true =>
    cases data2 with
    | none => rw [ingestProjectRun_nodata] at h2; simp at h2
    | some pd =>
      rcases hce : computeSemanticRelationships simf
          (embMapOf mkVec pd.embedding_content) pd.nodes with err | se
      · rw [ingestProjectRun_simError simf mkVec _ pd t2 t3 err hce] at h2
        simp at h2
      · rw [ingestProjectRun_ok simf mkVec _ pd t2 t3 se hce,
            ingestProjectRun_ok simf mkVec initStats pd t2 t3 se hce]
        refine ⟨?_, ?_, ?_, ?_, rfl, rfl⟩ <;> simp [initStats] <;> omega

/-- C9, witness: a first run creating one node followed by a second run
creating two nodes reports counters that sum both runs. -/
theorem C9_witness :
    (ingestProjectRun simConst vecConst
        (ingestProjectRun simConst vecConst initStats
          ⟨true, some ⟨[⟨some "a", some "Project", none⟩], [], []⟩⟩ 0 1).1
        ⟨true, some ⟨[⟨some "b", some "Composition", none⟩,
                     ⟨some "c", some "Effect", none⟩], [], []⟩⟩ 2 3).1.nodes_created =
      (ingestProjectRun simConst vecConst initStats
          ⟨true, some ⟨[⟨some "a", some "Project", none⟩], [], []⟩⟩ 0 1).1.nodes_created +
        (ingestProjectRun simConst vecConst initStats
          ⟨true, some ⟨[⟨some "b", some "Composition", none⟩,
                       ⟨some "c", some "Effect", none⟩], [], []⟩⟩ 2 3).1.nodes_created ∧
    (ingestProjectRun simConst vecConst
        (ingestProjectRun simConst vecConst initStats
          ⟨true, some ⟨[⟨some "a", some "Project", none⟩], [], []⟩⟩ 0 1).1
        ⟨true, some ⟨[⟨some "b", some "Composition", none⟩,
                     ⟨some "c", some "Effect", none⟩], [], []⟩⟩ 2 3).1.end_time = 3 := by
  have h := C9_counters_accumulate simConst vecConst
    ⟨true, some ⟨[⟨some "a", some "Project", none⟩], [], []⟩⟩
    ⟨true, some ⟨[⟨some "b", some "Composition", none⟩,
                 ⟨some "c", some "Effect", none⟩], [], []⟩⟩
    0 1 2 3 (by decide) (by decide)
  exact ⟨h.1, h.2.2.2.2.2⟩

/-- C10: if any entry of `embedding_content` fails (the embedded failure
mode: a missing `id`, `field`, `content` or `type` key), the function
returns the empty map — the embeddings built for the earlier, valid
entries are discarded — while `embeddings_generated` keeps the increments
made for those earlier entries, and can therefore exceed the number of
embeddings actually returned. -/
theorem C10_embedding_failure_discards_map {V : Type}
    (mkVec : RawContent → V) (s : GraphStats) (xs ys : List RawContent)
    (bad : RawContent) (hxs : ∀ x ∈ xs, validContent x = true)
    (hbad : validContent bad = false) :
    generateEmbeddings mkVec s (xs ++ bad :: ys) =
      ({ s with embeddings_generated := s.embeddings_generated + xs.length },
       ([] : EmbMap V)) :=
  generateEmbeddingsAux_failure mkVec xs s [] bad ys hxs hbad

/-- C10, witness: one valid entry followed by an entry with no keys yields
the empty map while the counter records the one embedding generated before
the failure. -/
theorem C10_witness :
    generateEmbeddings vecConst initStats
      [⟨some "n1", some "name", some "Title", some "TextLayer"⟩,
       ⟨none, none, none, none⟩] =
      ({ initStats with
          embeddings_generated := initStats.embeddings_generated + 1 },
       ([] : EmbMap Unit)) :=
  C10_embedding_failure_discards_map vecConst initStats
    [⟨some "n1", some "name", some "Title", some "TextLayer"⟩] []
    ⟨none, none, none, none⟩ (by decide) (by decide)

end Auteur
